import Mathlib

/-!
Verification of the haproxy-operator charm core (src/charm.py): the mode
resolver, the reconciliation driver, the certificate lifecycle coordinator
and the event handlers, shallowly embedded as pure Lean functions.

Side effects of the Python code are made explicit:
  * `self.unit.status = ...` assignments become returned `Status` values;
  * calls on external collaborators (revocation requests, key generation,
    certificate signing requests, configuration builds, URL publication)
    become elements of returned action lists;
  * Python exceptions become `Except` values, an uncaught exception being
    an `Except.error` escaping a handler.
Helpers living in modules not present under src/ (state/tls.py,
tls_relation.py, state/validation.py) are modelled from the spec and say so
in their doc comments.
-/

namespace Haproxy

/-- `ProxyMode` from charm.py: the four possible proxy modes. -/
inductive ProxyMode
  | INGRESS
  | LEGACY
  | NOPROXY
  | INVALID
deriving DecidableEq, Repr

/-- Modelled from the spec: `TLSInformation` (state/tls.py, not under src/)
holds the desired external hostname; it is never constructed successfully
unless the hostname configuration is present and well-formed. -/
structure TLSInformation where
  external_hostname : String
deriving DecidableEq, Repr

/-- A unit status value as set through `self.unit.status`. -/
inductive Status
  | maintenance (msg : String)
  | blocked (msg : String)
  | active
deriving DecidableEq, Repr

/-- Shallow embedding of `HAProxyCharm._validate_state`. Inputs are the two
relation-presence facts (`bool(self._ingress_provider.relations)`,
`bool(self.reverseproxy_requirer.relations)`) and the outcome of
`TLSInformation.validate(self)` (`Except.error msg` when it raises
`TLSNotReadyError` with message `msg`). Returns the proxy mode together
with the status the method sets, if any. -/
def validateState (isIngressRelated isLegacyRelated : Bool)
    (tlsValidate : Except String TLSInformation) : ProxyMode × Option Status :=
  if isIngressRelated && isLegacyRelated then
    (ProxyMode.INVALID, some (Status.blocked "Both ingress and reverseproxy is related."))
  else if isIngressRelated then
    match tlsValidate with
    | Except.error exc => (ProxyMode.INVALID, some (Status.blocked exc))
    | Except.ok _ => (ProxyMode.INGRESS, none)
  else if isLegacyRelated then
    (ProxyMode.LEGACY, none)
  else
    (ProxyMode.NOPROXY, none)

/-- The validated charm configuration (`CharmConfig.from_charm`); its
contents are out of scope for this core, only its identity flows into the
configuration builds. -/
structure CharmConfig where
  settings : List (String × String)
deriving DecidableEq, Repr

/-- Snapshot of the applications consuming the ingress relation and the
routing data each requires (`IngressRequirersInformation.from_provider`);
read-only to the core. -/
structure IngressRequirersInformation where
  backends : List String
deriving DecidableEq, Repr

/-- One backend service advertised by the legacy reverseproxy relation
(`self.reverseproxy_requirer.get_services()`). -/
structure Service where
  name : String
deriving DecidableEq, Repr

/-- A configuration build handed to the `HAProxyService` collaborator: one
constructor per `reconcile_*` call in `HAProxyCharm._reconcile`. -/
inductive Build
  | ingress (config : CharmConfig) (info : IngressRequirersInformation) (hostname : String)
  | legacy (config : CharmConfig) (services : List Service)
  | default (config : CharmConfig)
deriving DecidableEq, Repr

/-- The facts one reconciliation pass of `HAProxyCharm._reconcile` reads:
relation presence, the TLS validation outcome, the validated config, and
the data the mode-specific branches would gather. -/
structure ReconcileInput where
  ingressRelated : Bool
  legacyRelated : Bool
  tls : Except String TLSInformation
  config : CharmConfig
  ingressInfo : IngressRequirersInformation
  services : List Service
deriving Repr

/-- Shallow embedding of `HAProxyCharm._reconcile`. Returns, when no
exception escapes, the configuration build invoked (none when the pass
stops early) and the last status set during the pass.
`TLSInformation.from_charm` in the INGRESS branch is the same underlying
TLS state as the validator, so its failure propagates as `Except.error`. -/
def reconcile (inp : ReconcileInput) : Except String (Option Build × Option Status) :=
  let mv := validateState inp.ingressRelated inp.legacyRelated inp.tls
  if mv.1 = ProxyMode.INVALID then
    Except.ok (none, mv.2)
  else
    match mv.1 with
    | ProxyMode.INGRESS =>
      match inp.tls with
      | Except.ok tlsInfo =>
        Except.ok (some (Build.ingress inp.config inp.ingressInfo tlsInfo.external_hostname),
          some Status.active)
      | Except.error e => Except.error e
    | ProxyMode.LEGACY =>
      Except.ok (some (Build.legacy inp.config inp.services), some Status.active)
    | _ =>
      Except.ok (some (Build.default inp.config), some Status.active)

/-- A certificate known on the provider side of the certificates relation,
as returned by `self.certificates.get_provider_certificates()`: certificate
body, its signing request, the issuing CA and the chain. -/
structure ProviderCert where
  certificate : String
  csr : String
  ca : String
  chain : List String
deriving DecidableEq, Repr

/-- Modelled from the spec: `ProviderCertificate.chain_as_pem` (the TLS
library collaborator, not under src/) renders the chain material as one PEM
string. -/
def ProviderCert.chainAsPem (c : ProviderCert) : String :=
  String.intercalate "\n" c.chain

/-- One write operation issued to the certificates collaborator by
`HAProxyCharm._reconcile_certificates`, in program order. -/
inductive CertAction
  | revoke (csr : String)
  | generatePrivateKey (hostname : String)
  | requestCertificate (hostname : String)
deriving DecidableEq, Repr

/-- One iteration of the `for certificate in ...` loop of
`_reconcile_certificates`: a certificate whose embedded hostname differs
from the desired hostname gets a revocation request appended, a matching
one becomes the current certificate. `getH` embeds
`get_hostname_from_cert` (tls_relation.py, not under src/; per the spec an
unparsable body yields no hostname and is treated as non-matching). -/
def certStep (getH : String → Option String) (desired : String)
    (acc : List CertAction × Option ProviderCert) (c : ProviderCert) :
    List CertAction × Option ProviderCert :=
  if getH c.certificate ≠ some desired then
    (acc.1 ++ [CertAction.revoke c.csr], acc.2)
  else
    (acc.1, some c)

/-- Shallow embedding of `HAProxyCharm._reconcile_certificates` for desired
hostname `desired` over the provider certificates `certs`: the loop over
the certificates, then, when no current certificate was found, a private
key generation followed by a certificate signing request. Returns the
actions issued in order and the final current certificate. -/
def reconcileCertificates (getH : String → Option String) (desired : String)
    (certs : List ProviderCert) : List CertAction × Option ProviderCert :=
  let folded := certs.foldl (certStep getH desired) ([], none)
  match folded.2 with
  | none =>
    (folded.1 ++ [CertAction.generatePrivateKey desired, CertAction.requestCertificate desired],
      none)
  | some c => (folded.1, some c)

/-- The cross-pass certificate state: the provider-side certificates (only
the certificate authority changes these) and the requirer-side artifacts
the issued actions accumulate. -/
structure CertState where
  providerCerts : List ProviderCert
  generatedKeys : List String
  requestedCSRs : List String
  revocationRequests : List String
deriving DecidableEq, Repr

/-- Effect of one issued action on the certificate state: revocations,
key generations and signing requests accumulate on the requirer side; none
of them changes the provider-side certificate list (they are requests to
the external certificate authority). -/
def applyCertAction (s : CertState) : CertAction → CertState
  | CertAction.revoke csr => { s with revocationRequests := s.revocationRequests ++ [csr] }
  | CertAction.generatePrivateKey h => { s with generatedKeys := s.generatedKeys ++ [h] }
  | CertAction.requestCertificate h => { s with requestedCSRs := s.requestedCSRs ++ [h] }

/-- One full run of `_reconcile_certificates` against a certificate state:
compute the actions from the desired hostname and the provider
certificates, apply them to the state. -/
def runReconcileCertificates (getH : String → Option String) (desired : String)
    (s : CertState) : CertState × List CertAction :=
  let actions := (reconcileCertificates getH desired s.providerCerts).1
  (actions.foldl applyCertAction s, actions)

/-- An operation on the `TLSRelationService` collaborator, as named in the
spec: dropping a certificate, requesting a fresh one, marking one as
expiring. -/
inductive TLSOp
  | drop (cert : String)
  | requestFresh (cert : String)
  | markExpiring (cert : String)
deriving DecidableEq, Repr

/-- Modelled from the spec: `TLSRelationService.certificate_invalidated`
(tls_relation.py, not under src/) drops the certificate and requests a
fresh one via the request path. -/
def tlsCertificateInvalidated (cert : String) : List TLSOp :=
  [TLSOp.drop cert, TLSOp.requestFresh cert]

/-- Modelled from the spec: `TLSRelationService.certificate_expiring`
(tls_relation.py, not under src/) marks the certificate EXPIRING and does
not revoke it. -/
def tlsCertificateExpiring (cert : String) : List TLSOp :=
  [TLSOp.markExpiring cert]

/-- How the hostname extracted from a certificate body is rendered into a
status message, mirroring the Python f-string over the extraction result. -/
def hostText : Option String → String
  | some h => h
  | none => "None"

/-- Shallow embedding of `HAProxyCharm._on_certificate_expiring` after its
precondition gate: the TLS operations issued and the statuses set, in
order. -/
def onCertificateExpiring (getH : String → Option String) (cert : String) :
    List TLSOp × List Status :=
  (tlsCertificateExpiring cert,
    [Status.maintenance ("Waiting for new certificate for hostname: " ++ hostText (getH cert))])

/-- Shallow embedding of `HAProxyCharm._on_certificate_invalidated` after
its precondition gate: two independent `if` tests on the reason, then two
consecutive status assignments, the second naming the hostname embedded in
the certificate. -/
def onCertificateInvalidated (getH : String → Option String) (cert reason : String) :
    List TLSOp × List Status :=
  ((if reason = "revoked" then tlsCertificateInvalidated cert else []) ++
    (if reason = "expired" then tlsCertificateExpiring cert else []),
    [Status.maintenance "Waiting for new certificate",
      Status.maintenance ("Waiting for new certificate for hostname: " ++ hostText (getH cert))])

/-- Modelled from the spec: `TLSRelationService.get_provider_cert_with_hostname`
(tls_relation.py, not under src/) is the read-only lookup returning the
provider certificate whose embedded hostname matches, or none rather than
erroring when absent. -/
def getProviderCertWithHostname (getH : String → Option String) (hostname : String)
    (certs : List ProviderCert) : Option ProviderCert :=
  certs.find? (fun c => getH c.certificate = some hostname)

/-- Result surface of a Juju action: `event.set_results` with the
certificate triple, or `event.fail` with a message. -/
inductive ActionResult
  | results (certificate ca chain : String)
  | failed (msg : String)
deriving DecidableEq, Repr

/-- Shallow embedding of `HAProxyCharm._on_get_certificate_action`. The
handler carries no precondition decorator; its first statement is
`TLSInformation.validate(self)`, whose `TLSNotReadyError` therefore
escapes uncaught, embedded as `Except.error`. Otherwise the lookup decides
between the results triple and a failure message naming the hostname. -/
def onGetCertificateAction (tls : Except String TLSInformation)
    (getH : String → Option String) (hostname : String) (certs : List ProviderCert) :
    Except String ActionResult :=
  match tls with
  | Except.error e => Except.error e
  | Except.ok _ =>
    match getProviderCertWithHostname getH hostname certs with
    | some providerCert =>
      Except.ok (ActionResult.results providerCert.certificate providerCert.ca
        providerCert.chainAsPem)
    | none =>
      Except.ok (ActionResult.failed ("Missing or incomplete certificate data for " ++ hostname))

/-- Shallow embedding of `HAProxyCharm._on_ingress_data_provided` together
with its `validate_config_and_tls(defer=True, block_on_tls_not_ready=True)`
gate: `none` when the gate defers the event (invalid config or TLS not
ready); otherwise the handler runs `_reconcile` and then unconditionally
publishes the ingress URL built from the external hostname and the
requesting application's model and name. -/
def onIngressDataProvided (inp : ReconcileInput) (configValid : Bool)
    (model appName : String) :
    Option (Except String ((Option Build × Option Status) × String)) :=
  match configValid, inp.tls with
  | true, Except.ok _ =>
    some (do
      let r ← reconcile inp
      let tlsInfo ← inp.tls
      Except.ok (r,
        "https://" ++ tlsInfo.external_hostname ++ "/" ++ model ++ "-" ++ appName ++ "/"))
  | _, _ => none

/-- C1: mode resolution follows the decision order of `_validate_state`:
both relations related gives INVALID with a blocking status; otherwise
ingress related attempts the TLS validator, whose failure gives INVALID
with the validator's error message as blocking status and whose success
gives INGRESS; otherwise legacy related gives LEGACY; otherwise NOPROXY. -/
theorem mode_resolution_decision_order :
    ∀ (i l : Bool) (t : Except String TLSInformation),
      (i = true → l = true →
        validateState i l t =
          (ProxyMode.INVALID, some (Status.blocked "Both ingress and reverseproxy is related."))) ∧
      (i = true → l = false → ∀ e, t = Except.error e →
        validateState i l t = (ProxyMode.INVALID, some (Status.blocked e))) ∧
      (i = true → l = false → ∀ info, t = Except.ok info →
        validateState i l t = (ProxyMode.INGRESS, none)) ∧
      (i = false → l = true → validateState i l t = (ProxyMode.LEGACY, none)) ∧
      (i = false → l = false → validateState i l t = (ProxyMode.NOPROXY, none)) := by
  intro i l t
  cases i <;> cases l <;> cases t <;> simp [validateState]

/-- Witness for C1 at concrete inputs: all five branches of the decision
order evaluated. -/
theorem mode_resolution_decision_order_witness :
    validateState true true (Except.ok ⟨"haproxy.internal"⟩) =
      (ProxyMode.INVALID, some (Status.blocked "Both ingress and reverseproxy is related.")) ∧
    validateState true false (Except.error "TLS not ready") =
      (ProxyMode.INVALID, some (Status.blocked "TLS not ready")) ∧
    validateState true false (Except.ok ⟨"haproxy.internal"⟩) = (ProxyMode.INGRESS, none) ∧
    validateState false true (Except.ok ⟨"haproxy.internal"⟩) = (ProxyMode.LEGACY, none) ∧
    validateState false false (Except.ok ⟨"haproxy.internal"⟩) = (ProxyMode.NOPROXY, none) :=
  ⟨(mode_resolution_decision_order true true (Except.ok ⟨"haproxy.internal"⟩)).1 rfl rfl,
    (mode_resolution_decision_order true false (Except.error "TLS not ready")).2.1 rfl rfl
      "TLS not ready" rfl,
    (mode_resolution_decision_order true false (Except.ok ⟨"haproxy.internal"⟩)).2.2.1 rfl rfl
      ⟨"haproxy.internal"⟩ rfl,
    (mode_resolution_decision_order false true (Except.ok ⟨"haproxy.internal"⟩)).2.2.2.1 rfl rfl,
    (mode_resolution_decision_order false false (Except.ok ⟨"haproxy.internal"⟩)).2.2.2.2 rfl rfl⟩

/-- Counterexample to C2: with the ingress relation present, the legacy
relation absent and the TLS validator failing, `_validate_state` returns
INVALID although not both relations are present, so "INVALID iff both
relations are present" fails and TLS state does affect invalidity. -/
theorem invalid_not_iff_both_related :
    ¬(((validateState true false (Except.error "TLS not ready")).1 = ProxyMode.INVALID) ↔
      (true && false) = true) := by
  simp [validateState]

/-- C2 amended: the mode resolver returns INVALID iff both relations are
present, or the ingress relation alone is present and TLS validation
fails; TLS state affects invalidity exactly in the ingress-only case. -/
theorem invalid_iff_both_or_tls_failure :
    ∀ (i l : Bool) (t : Except String TLSInformation),
      (validateState i l t).1 = ProxyMode.INVALID ↔
        (i = true ∧ l = true) ∨ (i = true ∧ l = false ∧ ∃ e, t = Except.error e) := by
  intro i l t
  cases i <;> cases l <;> cases t <;> simp [validateState]

/-- C7: whenever `_validate_state` returns INVALID, `_reconcile` stops
with no configuration build invoked, leaves the blocking status set by the
resolver in place, and does not set the unit status to active. -/
theorem invalid_mode_stops_reconcile :
    ∀ inp : ReconcileInput,
      (validateState inp.ingressRelated inp.legacyRelated inp.tls).1 = ProxyMode.INVALID →
      reconcile inp =
        Except.ok (none, (validateState inp.ingressRelated inp.legacyRelated inp.tls).2) ∧
      (∃ msg, (validateState inp.ingressRelated inp.legacyRelated inp.tls).2 =
        some (Status.blocked msg)) ∧
      (validateState inp.ingressRelated inp.legacyRelated inp.tls).2 ≠ some Status.active := by
  intro inp h
  obtain ⟨i, l, t, cfg, iinfo, svcs⟩ := inp
  cases i <;> cases l <;> cases t <;> simp_all [validateState, reconcile]

/-- Witness for C7: both relations present at a concrete input. -/
theorem invalid_mode_stops_reconcile_witness :
    reconcile ⟨true, true, Except.ok ⟨"haproxy.internal"⟩, ⟨[]⟩, ⟨[]⟩, []⟩ =
      Except.ok (none,
        (validateState true true (Except.ok ⟨"haproxy.internal"⟩)).2) ∧
    (∃ msg, (validateState true true (Except.ok ⟨"haproxy.internal"⟩)).2 =
      some (Status.blocked msg)) ∧
    (validateState true true (Except.ok ⟨"haproxy.internal"⟩)).2 ≠ some Status.active :=
  invalid_mode_stops_reconcile ⟨true, true, Except.ok ⟨"haproxy.internal"⟩, ⟨[]⟩, ⟨[]⟩, []⟩ rfl

/-- C10: when the precondition gate passes (valid config, TLS ready) and
both the ingress and legacy relations are present, so that the mode
resolver returned INVALID and set a blocked status with no build invoked,
`_on_ingress_data_provided` still publishes the URL
https://<external-hostname>/<model>-<app-name>/ to the requesting
consumer. -/
theorem ingress_url_published_even_when_invalid :
    ∀ (inp : ReconcileInput) (info : TLSInformation) (model appName : String),
      inp.tls = Except.ok info → inp.ingressRelated = true → inp.legacyRelated = true →
      onIngressDataProvided inp true model appName =
        some (Except.ok
          ((none, some (Status.blocked "Both ingress and reverseproxy is related.")),
            "https://" ++ info.external_hostname ++ "/" ++ model ++ "-" ++ appName ++ "/")) := by
  intro inp info model appName htls hi hl
  obtain ⟨i, l, t, cfg, iinfo, svcs⟩ := inp
  simp only at htls hi hl
  subst htls hi hl
  simp only [onIngressDataProvided, reconcile, validateState]
  rfl

/-- Witness for C10 at a concrete input: both relations present, TLS
ready, gate passed; the URL is still published. -/
theorem ingress_url_published_even_when_invalid_witness :
    onIngressDataProvided ⟨true, true, Except.ok ⟨"svc.example.com"⟩, ⟨[]⟩, ⟨[]⟩, []⟩
        true "prod" "web" =
      some (Except.ok
        ((none, some (Status.blocked "Both ingress and reverseproxy is related.")),
          "https://" ++ "svc.example.com" ++ "/" ++ "prod" ++ "-" ++ "web" ++ "/")) :=
  ingress_url_published_even_when_invalid
    ⟨true, true, Except.ok ⟨"svc.example.com"⟩, ⟨[]⟩, ⟨[]⟩, []⟩
    ⟨"svc.example.com"⟩ "prod" "web" rfl rfl rfl

lemma applyCertAction_providerCerts (s : CertState) (a : CertAction) :
    (applyCertAction s a).providerCerts = s.providerCerts := by
  cases a <;> rfl

lemma foldl_applyCertAction_providerCerts (l : List CertAction) (s : CertState) :
    (l.foldl applyCertAction s).providerCerts = s.providerCerts := by
  induction l generalizing s with
  | nil => rfl
  | cons a rest ih => simp [List.foldl, ih, applyCertAction_providerCerts]

lemma foldl_certStep_all_mismatch (getH : String → Option String) (desired : String) :
    ∀ (certs : List ProviderCert) (acc : List CertAction) (cur : Option ProviderCert),
      (∀ c ∈ certs, getH c.certificate ≠ some desired) →
      certs.foldl (certStep getH desired) (acc, cur) =
        (acc ++ certs.map (fun c => CertAction.revoke c.csr), cur) := by
  intro certs
  induction certs with
  | nil => intro acc cur _; simp
  | cons c rest ih =>
    intro acc cur h
    have hc : getH c.certificate ≠ some desired := h c (by simp)
    have hrest : ∀ d ∈ rest, getH d.certificate ≠ some desired :=
      fun d hd => h d (by simp [hd])
    simp only [List.foldl_cons, certStep, hc, if_pos, ite_true, ne_eq, not_false_eq_true]
    rw [ih (acc ++ [CertAction.revoke c.csr]) cur hrest]
    simp

lemma foldl_certStep_current (getH : String → Option String) (desired : String) :
    ∀ (certs : List ProviderCert) (acc : List CertAction) (cur : Option ProviderCert)
      (c : ProviderCert),
      (certs.foldl (certStep getH desired) (acc, cur)).2 = some c →
      cur = some c ∨ (c ∈ certs ∧ getH c.certificate = some desired) := by
  intro certs
  induction certs with
  | nil => intro acc cur c h; exact Or.inl h
  | cons d rest ih =>
    intro acc cur c h
    by_cases hd : getH d.certificate = some desired
    · have hstep : certStep getH desired (acc, cur) d = (acc, some d) := by
        simp [certStep, hd]
      rw [List.foldl_cons, hstep] at h
      rcases ih acc (some d) c h with heq | hmem
      · exact Or.inr ⟨by simp [Option.some.inj heq], by rw [← Option.some.inj heq]; exact hd⟩
      · exact Or.inr ⟨by simp [hmem.1], hmem.2⟩
    · have hstep : certStep getH desired (acc, cur) d =
          (acc ++ [CertAction.revoke d.csr], cur) := by
        simp [certStep, hd]
      rw [List.foldl_cons, hstep] at h
      rcases ih (acc ++ [CertAction.revoke d.csr]) cur c h with heq | hmem
      · exact Or.inl heq
      · exact Or.inr ⟨by simp [hmem.1], hmem.2⟩

lemma reconcileCertificates_current (getH : String → Option String) (desired : String)
    (certs : List ProviderCert) :
    (reconcileCertificates getH desired certs).2 =
      (certs.foldl (certStep getH desired) ([], none)).2 := by
  unfold reconcileCertificates
  cases h : (certs.foldl (certStep getH desired) ([], none)).2 <;> simp [h]

/-- C3: running `_reconcile_certificates` twice in succession with the same
desired hostname and no intervening external change (the provider
certificates are untouched by the issued requests, which only accumulate on
the requirer side) makes the second run issue exactly the actions of the
first run: no revocation, key generation or signing request not already
implied by the first run. -/
theorem reconcile_certificates_idempotent :
    ∀ (getH : String → Option String) (desired : String) (s : CertState),
      (runReconcileCertificates getH desired (runReconcileCertificates getH desired s).1).2 =
        (runReconcileCertificates getH desired s).2 := by
  intro getH desired s
  simp [runReconcileCertificates, foldl_applyCertAction_providerCerts]

/-- C4: when the desired hostname matches no known provider certificate
(as after a hostname change), `_reconcile_certificates` issues exactly one
revocation request per known certificate, in list order, followed by
exactly one private-key generation and then exactly one certificate
signing request for the new hostname, and ends with no current
certificate. -/
theorem hostname_change_revokes_then_requests :
    ∀ (getH : String → Option String) (desired : String) (certs : List ProviderCert),
      (∀ c ∈ certs, getH c.certificate ≠ some desired) →
      reconcileCertificates getH desired certs =
        (certs.map (fun c => CertAction.revoke c.csr) ++
          [CertAction.generatePrivateKey desired, CertAction.requestCertificate desired],
          none) := by
  intro getH desired certs h
  unfold reconcileCertificates
  rw [foldl_certStep_all_mismatch getH desired certs [] none h]
  simp

/-- Witness for C4: two stale certificates, a fresh hostname. -/
theorem hostname_change_revokes_then_requests_witness :
    reconcileCertificates (fun _ => none) "new.example.com"
        [⟨"certA", "csrA", "caA", []⟩, ⟨"certB", "csrB", "caB", []⟩] =
      ([CertAction.revoke "csrA", CertAction.revoke "csrB",
        CertAction.generatePrivateKey "new.example.com",
        CertAction.requestCertificate "new.example.com"], none) :=
  hostname_change_revokes_then_requests (fun _ => none) "new.example.com"
    [⟨"certA", "csrA", "caA", []⟩, ⟨"certB", "csrB", "caB", []⟩]
    (fun _ _ => fun hco => Option.noConfusion hco)

/-- C9: after a `_reconcile_certificates` pass, at most one provider
certificate is held as the current certificate, for every input list of
provider certificates, and that certificate comes from the list and
matches the desired hostname. -/
theorem at_most_one_current_certificate :
    ∀ (getH : String → Option String) (desired : String) (certs : List ProviderCert)
      (c1 c2 : ProviderCert),
      (reconcileCertificates getH desired certs).2 = some c1 →
      (reconcileCertificates getH desired certs).2 = some c2 →
      c1 = c2 ∧ c1 ∈ certs ∧ getH c1.certificate = some desired := by
  intro getH desired certs c1 c2 h1 h2
  have heq : c1 = c2 := Option.some.inj (h1 ▸ h2)
  rw [reconcileCertificates_current] at h1
  rcases foldl_certStep_current getH desired certs [] none c1 h1 with hnone | hmem
  · exact Option.noConfusion hnone
  · exact ⟨heq, hmem.1, hmem.2⟩

/-- Witness for C9: a list holding two certificates matching the desired
hostname still yields a single current certificate, the last match. -/
theorem at_most_one_current_certificate_witness :
    (⟨"svc.example.com", "csr2", "ca", []⟩ : ProviderCert) =
        ⟨"svc.example.com", "csr2", "ca", []⟩ ∧
      (⟨"svc.example.com", "csr2", "ca", []⟩ : ProviderCert) ∈
        [(⟨"svc.example.com", "csr1", "ca", []⟩ : ProviderCert),
          ⟨"svc.example.com", "csr2", "ca", []⟩] ∧
      (fun s => some s) (ProviderCert.certificate ⟨"svc.example.com", "csr2", "ca", []⟩) =
        some "svc.example.com" :=
  at_most_one_current_certificate (fun s => some s) "svc.example.com"
    [⟨"svc.example.com", "csr1", "ca", []⟩, ⟨"svc.example.com", "csr2", "ca", []⟩]
    ⟨"svc.example.com", "csr2", "ca", []⟩ ⟨"svc.example.com", "csr2", "ca", []⟩
    (by decide) (by decide)

/-- C5: `_on_certificate_invalidated` dispatches on the reason: "revoked"
drops the certificate and requests a fresh one through the
certificate-invalidated path; "expired" issues exactly the TLS operations
of the certificate-expiring path (mark expiring, no drop, no revocation);
any other reason issues no TLS operation at all; and in every case the
final status set names the hostname embedded in the affected
certificate. -/
theorem certificate_invalidated_dispatch :
    ∀ (getH : String → Option String) (cert reason : String),
      (reason = "revoked" →
        (onCertificateInvalidated getH cert reason).1 = tlsCertificateInvalidated cert) ∧
      (reason = "expired" →
        (onCertificateInvalidated getH cert reason).1 = (onCertificateExpiring getH cert).1 ∧
        (onCertificateInvalidated getH cert reason).1 = [TLSOp.markExpiring cert] ∧
        (onCertificateInvalidated getH cert reason).2.getLast? =
          (onCertificateExpiring getH cert).2.getLast?) ∧
      (reason ≠ "revoked" → reason ≠ "expired" →
        (onCertificateInvalidated getH cert reason).1 = []) ∧
      ((onCertificateInvalidated getH cert reason).2.getLast? =
        some (Status.maintenance
          ("Waiting for new certificate for hostname: " ++ hostText (getH cert)))) := by
  intro getH cert reason
  refine ⟨?_, ?_, ?_, ?_⟩
  · intro h
    subst h
    rfl
  · intro h
    subst h
    exact ⟨rfl, rfl, rfl⟩
  · intro h1 h2
    simp [onCertificateInvalidated, h1, h2]
  · rfl

/-- Witness for C5 at the three concrete reasons "revoked", "expired" and
"compromised". -/
theorem certificate_invalidated_dispatch_witness :
    (onCertificateInvalidated (fun _ => some "svc.example.com") "PEMBODY" "revoked").1 =
      tlsCertificateInvalidated "PEMBODY" ∧
    (onCertificateInvalidated (fun _ => some "svc.example.com") "PEMBODY" "expired").1 =
      (onCertificateExpiring (fun _ => some "svc.example.com") "PEMBODY").1 ∧
    (onCertificateInvalidated (fun _ => some "svc.example.com") "PEMBODY" "compromised").1 =
      [] ∧
    (onCertificateInvalidated (fun _ => some "svc.example.com") "PEMBODY"
        "compromised").2.getLast? =
      some (Status.maintenance
        ("Waiting for new certificate for hostname: " ++ hostText (some "svc.example.com"))) :=
  ⟨(certificate_invalidated_dispatch (fun _ => some "svc.example.com") "PEMBODY" "revoked").1
      rfl,
    ((certificate_invalidated_dispatch (fun _ => some "svc.example.com") "PEMBODY"
      "expired").2.1 rfl).1,
    (certificate_invalidated_dispatch (fun _ => some "svc.example.com") "PEMBODY"
      "compromised").2.2.1 (by decide) (by decide),
    (certificate_invalidated_dispatch (fun _ => some "svc.example.com") "PEMBODY"
      "compromised").2.2.2⟩

/-- C6: with TLS information constructable, the get-certificate action
returns the {certificate, ca, chain} triple when the lookup finds a
provider certificate for the hostname, otherwise cleanly fails with a
message naming the missing hostname; and the lookup itself returns none
rather than erroring when no certificate matches. -/
theorem get_certificate_action_behavior :
    ∀ (info : TLSInformation) (getH : String → Option String) (hostname : String)
      (certs : List ProviderCert),
      (∀ c, getProviderCertWithHostname getH hostname certs = some c →
        onGetCertificateAction (Except.ok info) getH hostname certs =
          Except.ok (ActionResult.results c.certificate c.ca c.chainAsPem)) ∧
      (getProviderCertWithHostname getH hostname certs = none →
        onGetCertificateAction (Except.ok info) getH hostname certs =
          Except.ok (ActionResult.failed
            ("Missing or incomplete certificate data for " ++ hostname))) ∧
      ((∀ c ∈ certs, getH c.certificate ≠ some hostname) →
        getProviderCertWithHostname getH hostname certs = none) := by
  intro info getH hostname certs
  refine ⟨?_, ?_, ?_⟩
  · intro c hc
    simp [onGetCertificateAction, hc]
  · intro hc
    simp [onGetCertificateAction, hc]
  · intro hall
    simp only [getProviderCertWithHostname, List.find?_eq_none, decide_eq_true_eq]
    exact hall

/-- Witness for C6: a matching lookup, a missing lookup, and an
all-mismatching list. -/
theorem get_certificate_action_behavior_witness :
    onGetCertificateAction (Except.ok ⟨"svc.example.com"⟩) (fun s => some s)
        "svc.example.com" [⟨"svc.example.com", "csr1", "ca1", ["chainA", "chainB"]⟩] =
      Except.ok (ActionResult.results "svc.example.com" "ca1"
        (ProviderCert.chainAsPem ⟨"svc.example.com", "csr1", "ca1", ["chainA", "chainB"]⟩)) ∧
    onGetCertificateAction (Except.ok ⟨"svc.example.com"⟩) (fun s => some s)
        "missing.example.com" [⟨"svc.example.com", "csr1", "ca1", ["chainA", "chainB"]⟩] =
      Except.ok (ActionResult.failed
        ("Missing or incomplete certificate data for " ++ "missing.example.com")) ∧
    getProviderCertWithHostname (fun s => some s) "missing.example.com"
        [⟨"svc.example.com", "csr1", "ca1", ["chainA", "chainB"]⟩] = none :=
  ⟨(get_certificate_action_behavior ⟨"svc.example.com"⟩ (fun s => some s) "svc.example.com"
      [⟨"svc.example.com", "csr1", "ca1", ["chainA", "chainB"]⟩]).1
      ⟨"svc.example.com", "csr1", "ca1", ["chainA", "chainB"]⟩ (by decide),
    (get_certificate_action_behavior ⟨"svc.example.com"⟩ (fun s => some s)
      "missing.example.com"
      [⟨"svc.example.com", "csr1", "ca1", ["chainA", "chainB"]⟩]).2.1 (by decide),
    (get_certificate_action_behavior ⟨"svc.example.com"⟩ (fun s => some s)
      "missing.example.com"
      [⟨"svc.example.com", "csr1", "ca1", ["chainA", "chainB"]⟩]).2.2 (by decide)⟩

/-- Counterexample to C8: the get-certificate action handler carries no
precondition decorator and no exception handling, so when TLS information
cannot be constructed, `TLSInformation.validate` raises `TLSNotReadyError`
and the exception escapes the handler uncaught, instead of resolving to a
status update and a clean return. -/
theorem get_certificate_action_raises :
    onGetCertificateAction (Except.error "TLS not ready") (fun _ => none)
      "svc.example.com" [] = Except.error "TLS not ready" := rfl

/-- C8 amended: the get-certificate action handler raises an uncaught
exception exactly when TLS information cannot be constructed; every other
path, including a lookup miss, resolves to a clean return. -/
theorem get_certificate_action_raises_iff_tls_not_ready :
    ∀ (tls : Except String TLSInformation) (getH : String → Option String)
      (hostname : String) (certs : List ProviderCert),
      (∃ e, onGetCertificateAction tls getH hostname certs = Except.error e) ↔
        (∃ e, tls = Except.error e) := by
  intro tls getH hostname certs
  cases tls with
  | error e => simp [onGetCertificateAction]
  | ok info =>
    simp only [onGetCertificateAction]
    cases h : getProviderCertWithHostname getH hostname certs <;> simp [h]

end Haproxy
